import Mathlib

/-!
Shallow embedding of the numerical core of `LSDRasterModel.cpp`
(landscape-evolution model: fluvial incision, hillslope diffusion,
Airy isostasy, and the run-loop control logic), together with proofs
about the embedded definitions.

Conventions of the embedding:
* C++ `float` values are modelled as exact rationals (`ℚ`); every
  arithmetic expression is transcribed literally from the source.
* Transcendental library calls (`pow`, `sin`) and genuinely external
  collaborators (the MTL/ITL sparse solver, the `K`/`D` forcing files,
  the flow-routing subsystem `LSDFlowInfo`, whose sources are not part
  of this development) are passed in as explicit oracle parameters.
* 2-D rasters (`Array2D<float>`) are modelled as total functions from
  cell coordinates to `ℚ`; an in-place write becomes a pointwise
  functional update.
* Loops whose iteration count is bounded in the source are modelled by
  structural recursion on the remaining budget; loops with no bound in
  the source take an explicit fuel argument and return `Option`.
-/

namespace LSDRM

/-- A raster cell: (row, column). -/
abbrev Cell : Type := ℕ × ℕ

/-- A dense 2-D field of float values, `Array2D<float>` in the source. -/
abbrev Grid : Type := Cell → ℚ

/-- External mathematical collaborators used by the model: `pow` from
`<cmath>` and `sin` from `<cmath>`, plus the interpolated values read
from the external `K`/`D` forcing files by `stream_K_fluv` /
`stream_K_soil`.  These are not code of the model and are supplied as
oracles. -/
structure Ext where
  fpow : ℚ → ℚ → ℚ
  sinQ : ℚ → ℚ
  piQ : ℚ
  streamKfluv : ℚ
  streamKsoil : ℚ

/-- The model state: the fields of class `LSDRasterModel` that the
embedded member functions read or write (declared in
`LSDRasterModel.hpp`). -/
structure Model where
  NRows : ℕ
  NCols : ℕ
  DataResolution : ℚ
  NoDataValue : ℚ
  RasterData : Grid
  zeta_old : Grid
  root_depth : Grid
  timeStep : ℚ
  endTime : ℚ
  endTime_mode : ℕ
  current_time : ℚ
  periodicity : ℚ
  periodicity_2 : ℚ
  switch_time : ℚ
  switch_delay : ℚ
  time_delay : ℚ
  p_weight : ℚ
  K_fluv : ℚ
  K_soil : ℚ
  K_amplitude : ℚ
  D_amplitude : ℚ
  K_mode : ℕ
  D_mode : ℕ
  period_mode : ℕ
  m : ℚ
  n : ℚ
  S_c : ℚ
  max_uplift : ℚ
  uplift_mode : ℕ
  /-- first character of each of the four boundary-condition strings,
  indexed north 0, east 1, south 2, west 3 -/
  bc : ℕ → Char
  steady_state : Bool
  initial_steady_state : Bool
  cycle_steady_check : Bool
  steady_state_tolerance : ℚ
  steady_state_limit : ℚ
  /-- `erosion_cycle_record`, a vector of five floats -/
  erosion_cycle_record : ℕ → ℚ

/-- `LSDRasterModel::is_base_level(i, j)`: the else-if chain testing the
first character of the corresponding boundary-condition string. -/
def is_base_level (M : Model) (i j : ℕ) : Bool :=
  if i = 0 ∧ M.bc 0 = 'b' then true
  else if j = 0 ∧ M.bc 3 = 'b' then true
  else if i = M.NRows - 1 ∧ M.bc 2 = 'b' then true
  else if j = M.NCols - 1 ∧ M.bc 1 = 'b' then true
  else false

/-- `LSDRasterModel::periodic_parameter(base_param, amplitude)`:
sinusoidal forcing, optionally a weighted two-periodicity composite. -/
def periodic_parameter (E : Ext) (M : Model) (base_param amplitude : ℚ) : ℚ :=
  if M.period_mode = 3 ∨ M.period_mode = 4 then
    M.p_weight * E.sinQ ((M.current_time - M.time_delay - M.switch_delay) * 2 * E.piQ /
        M.periodicity) * amplitude +
      (1 - M.p_weight) * E.sinQ ((M.current_time - M.time_delay - M.switch_delay) * 2 * E.piQ /
        M.periodicity_2) * amplitude + base_param
  else
    E.sinQ ((M.current_time - M.time_delay - M.switch_delay) * 2 * E.piQ / M.periodicity) *
      amplitude + base_param

/-- float-to-int conversion (truncation toward zero), as in the C++
assignment of a float expression to an `int`. -/
def ratTrunc (q : ℚ) : ℤ := if 0 ≤ q then ⌊q⌋ else ⌈q⌉

/-- `LSDRasterModel::square_wave_parameter(base_param, amplitude)`. -/
def square_wave_parameter (M : Model) (base_param amplitude : ℚ) : ℚ :=
  let wave : ℤ :=
    ratTrunc ((M.current_time - M.time_delay - M.switch_delay) / (M.periodicity / 2))
  let wave : ℤ := if wave % 2 = 0 then 1 else -1
  base_param + wave * amplitude

/-- `LSDRasterModel::get_K()`: erodibility, possibly time-forced.  Mode 3
reads an external time-series file (modelled by the `streamKfluv`
oracle); the `system("cp ...")` side effects are not value-relevant. -/
def get_K (E : Ext) (M : Model) : ℚ :=
  if M.K_mode = 1 then
    if M.initial_steady_state ∨ M.cycle_steady_check then
      periodic_parameter E M M.K_fluv M.K_amplitude
    else M.K_fluv
  else if M.K_mode = 2 then
    if M.initial_steady_state then square_wave_parameter M M.K_fluv M.K_amplitude
    else M.K_fluv
  else if M.K_mode = 3 then
    if M.initial_steady_state then E.streamKfluv else M.K_fluv
  else M.K_fluv

/-- `LSDRasterModel::get_D()`: hillslope diffusivity, possibly
time-forced (mode 3 modelled by the `streamKsoil` oracle). -/
def get_D (E : Ext) (M : Model) : ℚ :=
  if M.D_mode = 1 then
    if M.initial_steady_state then periodic_parameter E M M.K_soil M.D_amplitude
    else M.K_soil
  else if M.D_mode = 2 then
    if M.initial_steady_state then square_wave_parameter M M.K_soil M.D_amplitude
    else M.K_soil
  else if M.D_mode = 3 then
    if M.initial_steady_state then E.streamKsoil else M.K_soil
  else M.K_soil

/-- `LSDRasterModel::get_max_uplift()`. -/
def get_max_uplift (M : Model) : ℚ := M.max_uplift

/-- `LSDRasterModel::get_uplift_at_cell(i, j)`: per-cell uplift
increment for one time step.  Base-level cells get zero.  The gaussian
mode (2) uses float `pow`, passed through the `fpow` oracle; its sigma
parameters are the integer divisions `NRows/10`, `NCols/10` promoted to
float (so the embedding, like the source, divides by zero when
`NRows < 10`; the claims never evaluate that mode). -/
def get_uplift_at_cell (E : Ext) (M : Model) (i j : ℕ) : ℚ :=
  let mu_i : ℕ := M.NRows / 2
  let mu_j : ℕ := M.NCols / 2
  let sigma_i : ℚ := (M.NRows / 10 : ℕ)
  let sigma_j : ℚ := (M.NCols / 10 : ℕ)
  if is_base_level M i j then 0
  else
    (if M.uplift_mode = 1 then
      (((M.NRows : ℤ) - i - 1 : ℤ) : ℚ) * get_max_uplift M / ((M.NRows : ℚ) - 1)
    else if M.uplift_mode = 2 then
      get_max_uplift M * E.fpow (11/10)
        (-(((((i : ℤ) - mu_i) * ((i : ℤ) - mu_i) : ℤ) : ℚ) / (2 * sigma_i * sigma_i) +
           ((((j : ℤ) - mu_j) * ((j : ℤ) - mu_j) : ℤ) : ℚ) / (2 * sigma_j * sigma_j)))
    else if M.uplift_mode = 3 then
      let result := get_max_uplift M *
        (-(E.fpow (2 * (i : ℚ) / ((M.NRows : ℚ) - 1) - 1) 2) -
          E.fpow (2 * (j : ℚ) / ((M.NCols : ℚ) - 1) - 1) 2 + 1)
      if result < 0 then 0 else result
    else get_max_uplift M) * M.timeStep

/-- `LSDRasterModel::uplift_surface()` (the in-place void overload):
adds the per-cell uplift increment, skipping base-level cells and
no-data cells.  Returns the updated elevation field. -/
def uplift_surface (E : Ext) (M : Model) : Grid := fun c =>
  if c.1 < M.NRows ∧ c.2 < M.NCols ∧ ¬ is_base_level M c.1 c.2 ∧
      M.RasterData c ≠ M.NoDataValue then
    M.RasterData c + get_uplift_at_cell E M c.1 c.2
  else M.RasterData c

/-- Density ratio `(rho_m - rho_c) / rho_c` of `Airy_isostasy`
(`rho_c = 2650`, `rho_m = 3300`). -/
def airy_zeta_root : ℚ := (3300 - 2650) / 2650

/-- `LSDRasterModel::Airy_isostasy()`: local cell-wise isostatic
balance.  For every in-range cell: `load = elevation + root`,
`root := load / (1 + zeta_root)`, `elevation := load - root`.
Returns the updated (elevation, root) pair of fields. -/
def Airy_isostasy (NRows NCols : ℕ) (zeta root : Grid) : Grid × Grid :=
  (fun c =>
    if c.1 < NRows ∧ c.2 < NCols then
      (zeta c + root c) - (zeta c + root c) / (1 + airy_zeta_root)
    else zeta c,
   fun c =>
    if c.1 < NRows ∧ c.2 < NCols then
      (zeta c + root c) / (1 + airy_zeta_root)
    else root c)

/-- Does the elevation-comparison loop of `check_steady_state` find a
cell whose elevation changed by more than the tolerance since the
previous step?  (The loop returns early at the first such cell; only
the flag matters, so existence captures the final state.) -/
def steady_cell_violation (M : Model) : Bool :=
  (List.range M.NRows).any fun i => (List.range M.NCols).any fun j =>
    decide (|M.RasterData (i, j) - M.zeta_old (i, j)| > M.steady_state_tolerance)

/-- Does the cyclic branch of `check_steady_state` find a bad entry in
`erosion_cycle_record` (an unset `-99` slot, or two consecutive cycle
means differing by more than the tolerance)? -/
def cycle_record_violation (M : Model) : Bool :=
  (List.range 4).any fun i =>
    decide (M.erosion_cycle_record i = -99 ∨
      |M.erosion_cycle_record i - M.erosion_cycle_record (i + 1)| > M.steady_state_tolerance)

/-- `LSDRasterModel::check_steady_state()`.  Sets `steady_state := true`
then falsifies it from the cyclic record (when `cycle_steady_check`) or
from the cell-wise elevation comparison (when the steady-state limit
has not passed); an early `return` on a violation skips the
`initial_steady_state` promotion block at the end of the function. -/
def check_steady_state (M : Model) : Model :=
  if M.cycle_steady_check then
    if cycle_record_violation M then { M with steady_state := false }
    else
      if ¬ M.initial_steady_state then
        { M with steady_state := true, initial_steady_state := true,
                 time_delay := M.current_time,
                 endTime := if M.endTime_mode = 1 ∨ M.endTime_mode = 3 then
                     M.endTime + M.current_time
                   else M.endTime }
      else { M with steady_state := true }
  else if M.steady_state_limit < 0 ∨ M.current_time < M.steady_state_limit then
    if steady_cell_violation M then { M with steady_state := false }
    else
      if ¬ M.initial_steady_state then
        { M with steady_state := true, initial_steady_state := true,
                 time_delay := M.current_time,
                 endTime := if M.endTime_mode = 1 ∨ M.endTime_mode = 3 then
                     M.endTime + M.current_time
                   else M.endTime }
      else { M with steady_state := true }
  else
    if ¬ M.initial_steady_state then
      { M with steady_state := true, initial_steady_state := true,
               time_delay := M.current_time,
               endTime := if M.endTime_mode = 1 ∨ M.endTime_mode = 3 then
                   M.endTime + M.current_time
                 else M.endTime }
    else { M with steady_state := true }

/-- `LSDRasterModel::check_if_hung()`.  The function computes
`num_cycles` and then executes an unconditional `return false;`
(line 562), so the mode `switch` that follows it is unreachable and the
function is constantly `false`. -/
def check_if_hung (M : Model) : Bool :=
  let _num_cycles : ℤ := ratTrunc (M.current_time / M.periodicity)
  false

/-- The `switch` statement of `check_if_hung` that sits below the early
`return false;` — the hung-run test that the statement would perform if
it were reachable (modes 1 and 3: current time beyond 100 times the end
time without initial steady state; mode 2: cycle count beyond 100 times
the configured cycle count). -/
def check_if_hung_dead_switch (M : Model) : Bool :=
  let num_cycles : ℤ := ratTrunc (M.current_time / M.periodicity)
  if M.endTime_mode = 1 then
    ¬ M.initial_steady_state ∧ M.current_time > M.endTime * 100
  else if M.endTime_mode = 2 then
    ¬ M.initial_steady_state ∧ (num_cycles : ℚ) > M.endTime * 100
  else if M.endTime_mode = 3 then
    ¬ M.initial_steady_state ∧ M.current_time > M.endTime * 100
  else false

/-- The flow network consumed by the fluvial solver: the output of the
external flow-routing collaborator `LSDFlowInfo` (whose sources are not
part of this development; modelled from the spec, which provides a
receiver id per cell, a topological visiting order, an accumulated
contributing-pixel count per cell, and a flow-length code to the
receiver). -/
structure FlowInfo where
  /-- `get_SVector()`: the topological visiting order of node ids -/
  nodeList : List ℕ
  /-- `retrieve_current_row_and_col`: row of a node -/
  rowOf : ℕ → ℕ
  /-- `retrieve_current_row_and_col`: column of a node -/
  colOf : ℕ → ℕ
  /-- `retrieve_receiver_information`: receiver node id -/
  receiver : ℕ → ℕ
  /-- `retrieve_contributing_pixels_of_node` -/
  contributing_pixels : ℕ → ℕ
  /-- `retrieve_flow_length_code_of_node` -/
  flow_length_code : ℕ → ℕ

/-- The cell a node occupies. -/
def cellOf (f : FlowInfo) (node : ℕ) : Cell := (f.rowOf node, f.colOf node)

/-- The `switch` on `retrieve_flow_length_code_of_node` in
`fluvial_incision`: distance to the receiver; codes other than 1
(cardinal) and 2 (diagonal, `DataResolution * pow(2, 0.5)`) give the
sentinel `-99`. -/
def dx_of_code (E : Ext) (M : Model) (code : ℕ) : ℚ :=
  if code = 1 then M.DataResolution
  else if code = 2 then M.DataResolution * E.fpow 2 (1/2)
  else -99

/-- One pass of the per-cell Newton–Raphson iteration of the `n ≠ 1`
branch of `fluvial_incision` (the body of its do-while loop), iterated
on `new_zeta` with `old_zeta`, the receiver elevation, the stream-power
factor and the exponent fixed.  The loop repeats while
`abs(epsilon > 0.001)` — `abs` applied to the comparison result — i.e.
while the signed update `epsilon` exceeds `0.001`.  The source imposes
no iteration cap, so the embedding takes fuel and returns `none` when
the budget is exhausted with the loop still running; on exit it returns
the final `new_zeta` together with the last `epsilon`. -/
def fluvial_newton (E : Ext) (streamPowerFactor n dx old_zeta zeta_receiver : ℚ) :
    ℕ → ℚ → Option (ℚ × ℚ)
  | 0, _ => none
  | fuel + 1, new_zeta =>
    let slope := (new_zeta - zeta_receiver) / dx
    let epsilon := (new_zeta - old_zeta + streamPowerFactor * E.fpow slope n) /
      (1 + streamPowerFactor * (n / dx) * E.fpow slope (n - 1))
    let new_zeta := new_zeta - epsilon
    if epsilon > 1/1000 then
      fluvial_newton E streamPowerFactor n dx old_zeta zeta_receiver fuel new_zeta
    else some (new_zeta, epsilon)

/-- The local `drainageArea` of `fluvial_incision`:
`contributing pixels * DataResolution^2`. -/
def drainage_area_of (M : Model) (f : FlowInfo) (node : ℕ) : ℚ :=
  (f.contributing_pixels node : ℚ) * M.DataResolution * M.DataResolution

/-- The local `streamPowerFactor` of the linear branch of
`fluvial_incision`: `K * pow(drainageArea, m) * (timeStep / dx)`. -/
def stream_power_factor (E : Ext) (M : Model) (f : FlowInfo) (K : ℚ) (node : ℕ) : ℚ :=
  K * E.fpow (drainage_area_of M f node) M.m *
    (M.timeStep / dx_of_code E M (f.flow_length_code node))

/-- The body of the node loop of `LSDRasterModel::fluvial_incision` for
one node, updating the working elevation raster `zeta`.
For `abs(n - 1) < 0.0001` (the linear branch) a non-self-receiving node
with a defined distance code is assigned
`(zeta + zeta_receiver * F) / (1 + F)` with
`F = K * pow(A, m) * (timeStep / dx)`; all other nodes are skipped.
For `n ≠ 1` the source runs the Newton solve into the local `new_zeta`
but contains no write of `new_zeta` back into `zeta`, so the raster is
left unchanged by that branch. -/
def fluvial_node_step (E : Ext) (M : Model) (f : FlowInfo) (K : ℚ)
    (zeta : Grid) (node : ℕ) : Grid :=
  let cell := cellOf f node
  let rcell := cellOf f (f.receiver node)
  let dx := dx_of_code E M (f.flow_length_code node)
  if |M.n - 1| < 1/10000 then
    if dx = -99 then zeta
    else if node ≠ f.receiver node then
      let streamPowerFactor := stream_power_factor E M f K node
      fun c =>
        if c = cell then
          (zeta cell + zeta rcell * streamPowerFactor) / (1 + streamPowerFactor)
        else zeta c
    else zeta
  else
    if dx = -99 then zeta
    else
      -- `float new_zeta` is computed here by `fluvial_newton` but the
      -- source never stores it into `zeta[row][col]`, so the raster is
      -- returned unchanged.
      zeta

/-- `LSDRasterModel::fluvial_incision()`: one single pass over the flow
network's visiting order (`get_SVector`), processing each node with
`fluvial_node_step`; the working copy is written back to `RasterData`
at the end.  Returns the updated elevation field.  The flow network `f`
is the one the external router computes from the current elevation. -/
def fluvial_incision (E : Ext) (M : Model) (f : FlowInfo) : Grid :=
  f.nodeList.foldl (fluvial_node_step E M f (get_K E M)) M.RasterData

/-- The `dimension` computed by `LSDRasterModel::interpret_boundary`:
starting from 0, each edge whose boundary code begins with 'b' sets
`dimension = i % 2` (the last such edge wins). -/
def interpret_dimension (M : Model) : ℕ :=
  let d := 0
  let d := if M.bc 0 = 'b' then 0 % 2 else d
  let d := if M.bc 1 = 'b' then 1 % 2 else d
  let d := if M.bc 2 = 'b' then 2 % 2 else d
  let d := if M.bc 3 = 'b' then 3 % 2 else d
  d

/-- The `periodic` flag of `interpret_boundary`.  The caller's local is
uninitialized, so when neither edge on the solved axis is periodic the
flag keeps its incoming (indeterminate) value `periodic0`. -/
def interpret_periodic (M : Model) (periodic0 : Bool) : Bool :=
  let dimension := interpret_dimension M
  if M.bc (1 - dimension) = 'p' ∨ M.bc (3 - dimension) = 'p' then true else periodic0

/-- The `size` of the linear system of `interpret_boundary` (the count
of unknown cells: the grid minus the two pinned boundary strips along
the solved axis). -/
def interpret_size (M : Model) : ℕ :=
  if interpret_dimension M = 0 then (M.NRows - 2) * M.NCols else M.NRows * (M.NCols - 2)

/-- The set of cells written back by `LSDRasterModel::repack_vector`:
for dimension 0 the rows `1 .. NRows-2` over every column, for
dimension 1 every row over the columns `1 .. NCols-2`. -/
def repack_region (M : Model) (dimension : ℕ) (c : Cell) : Prop :=
  if dimension = 0 then 1 ≤ c.1 ∧ c.1 + 1 < M.NRows ∧ c.2 < M.NCols
  else c.1 < M.NRows ∧ 1 ≤ c.2 ∧ c.2 + 1 < M.NCols

instance (M : Model) (dimension : ℕ) (c : Cell) : Decidable (repack_region M dimension c) := by
  unfold repack_region; infer_instance

/-- The solution-vector index `repack_vector` reads for a cell of the
written region (row-major over the region's own extent). -/
def repack_pos (M : Model) (dimension : ℕ) (c : Cell) : ℕ :=
  if dimension = 0 then (c.1 - 1) * M.NCols + c.2 else c.1 * (M.NCols - 2) + (c.2 - 1)

/-- `LSDRasterModel::repack_vector`: write the solver's solution vector
back into the elevation raster over the region of unknowns. -/
def repack_vector (M : Model) (dimension : ℕ) (output : ℕ → ℚ) (zeta : Grid) : Grid :=
  fun c => if repack_region M dimension c then output (repack_pos M dimension c) else zeta c

/-- `LSDRasterModel::soil_diffusion_fd_linear()`: assemble the linear
diffusion system (`generate_fd_matrix` / `build_fd_vector`) over the
unknown strip, solve it with the external ILU(0)-preconditioned
BiCGSTAB routine of MTL/ITL, and repack the solution.  The external
iterative solver's output is the oracle `bicgstab_out` (a function of
the assembled system, hence of the model state). -/
def soil_diffusion_fd_linear (M : Model) (bicgstab_out : ℕ → ℚ) : Grid :=
  repack_vector M (interpret_dimension M) bicgstab_out M.RasterData

/-- The Picard loop of `LSDRasterModel::soil_diffusion_fv_nonlinear()`:
each pass re-assembles the slope-limited system from the current
iterate (`generate_fv_matrix` / `build_fv_vector`, from `RasterData`
and `zeta_old`), solves it with the external BiCGSTAB routine (oracle
`solve`, a function of the current iterate), repacks, and repeats while
`max_diff > epsilon` with the iteration count below `max_iter`.  Note
the source compares `abs(RasterData - last_iteration)` against
`max_diff` but assigns the signed difference.  `budget` is the number
of loop passes still allowed (`max_iter - iter`). -/
def soil_diffusion_fv_loop (M : Model) (dimension : ℕ) (solve : Grid → ℕ → ℚ) :
    ℕ → Grid → Grid
  | 0, zeta => zeta
  | budget + 1, zeta =>
    let last_iteration := zeta
    let zeta := repack_vector M dimension (solve zeta) zeta
    let max_diff := (List.range M.NRows).foldl (fun acc i =>
      (List.range M.NCols).foldl (fun acc j =>
        if |zeta (i, j) - last_iteration (i, j)| > acc then
          zeta (i, j) - last_iteration (i, j)
        else acc) acc) 0
    if max_diff > 1/100000 then soil_diffusion_fv_loop M dimension solve budget zeta
    else zeta

/-- `LSDRasterModel::soil_diffusion_fv_nonlinear()`: the Picard
iteration run with the source's `max_iter = 200` budget. -/
def soil_diffusion_fv_nonlinear (M : Model) (solve : Grid → ℕ → ℚ) : Grid :=
  soil_diffusion_fv_loop M (interpret_dimension M) solve 200 M.RasterData

/-- The state threaded through `DAVE_nonlinear_creep_timestep`: the
member fields it reads and writes.  `dx_front_term` / `dy_front_term`
are the caller-held assembly coefficients `timeStep * D / dx^2` that
`DAVE_initiate_assembler_matrix` recomputes from the member `timeStep`
(the index bookkeeping vectors it also fills depend only on the grid
dimensions and are omitted). -/
structure CreepState where
  timeStep : ℚ
  RasterData : Grid
  zeta_last_iter : Grid
  zeta_last_timestep : Grid
  zeta_this_iter : Grid
  dx_front_term : ℚ
  dy_front_term : ℚ

/-- `DAVE_initiate_assembler_matrix`: recompute the front terms from
the current member `timeStep` (`dx = dy = DataResolution`, diffusivity
`D_nl = get_D()`, constant within one call). -/
def DAVE_initiate (dres D_nl : ℚ) (s : CreepState) : CreepState :=
  { s with dx_front_term := s.timeStep * D_nl / (dres * dres),
           dy_front_term := s.timeStep * D_nl / (dres * dres) }

/-- The per-iteration residual check of `DAVE_nonlinear_creep_timestep`:
the maximum over all cells of `sqrt((a - b)^2) = |a - b|`. -/
def max_residual_of (NRows NCols : ℕ) (a b : Grid) : ℚ :=
  (List.range NRows).foldl (fun acc i =>
    (List.range NCols).foldl (fun acc j =>
      if |a (i, j) - b (i, j)| > acc then |a (i, j) - b (i, j)| else acc) acc) 0

/-- The inner convergence loop of `DAVE_nonlinear_creep_timestep`:
`while (max_residual > iteration_tolerance && n_iterations <= max_iterations)`.
Each pass calls `DAVE_solve_assembler_matrix` (assembly from
`zeta_last_iter` / `zeta_last_timestep` with the member `timeStep` and
front terms, then the external BiCGSTAB solve — the whole solve is the
oracle `solve`), measures the residual against the previous iterate,
and advances `zeta_last_iter`.  With `max_iterations = 10` the source
loop runs at most 11 passes; `budget = 11 - n_iterations` makes the
recursion structural while keeping the source's exit condition exact.
Returns the state with the final iterate, the iteration count and the
final residual. -/
def DAVE_inner_loop (NRows NCols : ℕ)
    (solve : ℚ → ℚ → ℚ → Grid → Grid → Grid) (iteration_tolerance : ℚ) :
    ℕ → CreepState → ℚ → ℕ → CreepState × ℕ × ℚ
  | 0, s, max_residual, n_iterations => (s, n_iterations, max_residual)
  | budget + 1, s, max_residual, n_iterations =>
    if max_residual > iteration_tolerance then
      let zti := solve s.timeStep s.dx_front_term s.dy_front_term
        s.zeta_last_iter s.zeta_last_timestep
      let mr := max_residual_of NRows NCols zti s.zeta_last_iter
      DAVE_inner_loop NRows NCols solve iteration_tolerance budget
        { s with zeta_last_iter := zti, zeta_this_iter := zti } mr (n_iterations + 1)
    else (s, n_iterations, max_residual)

/-- One pass of the outer adaptive-timestep loop of
`DAVE_nonlinear_creep_timestep`: reset the iterate snapshots to the
(pre-step) `RasterData`, run the inner convergence loop, then adapt.
Convergence in one iteration doubles the member `timeStep` and
re-initiates the assembler (and sets `continue_switch`); exhausting the
iteration cap divides the member `timeStep` by 10, resets
`zeta_last_iter` to `RasterData`, re-initiates, and leaves
`continue_switch` false so the step is retried; otherwise the pass just
finishes.  Returns the state and `continue_switch`. -/
def DAVE_outer_pass (NRows NCols : ℕ) (dres D_nl : ℚ)
    (solve : ℚ → ℚ → ℚ → Grid → Grid → Grid) (iteration_tolerance : ℚ)
    (s : CreepState) : CreepState × Bool :=
  let s0 := { s with zeta_last_iter := s.RasterData, zeta_last_timestep := s.RasterData }
  let r := DAVE_inner_loop NRows NCols solve iteration_tolerance 11 s0 (iteration_tolerance + 1) 0
  let s1 := r.1
  let n_iterations := r.2.1
  if n_iterations = 1 then
    (DAVE_initiate dres D_nl { s1 with timeStep := s1.timeStep * 2 }, true)
  else if n_iterations ≥ 10 then
    (DAVE_initiate dres D_nl
      { s1 with zeta_last_iter := s1.RasterData, timeStep := s1.timeStep / 10 }, false)
  else (s1, true)

/-- The outer `while (continue_switch == false)` loop of
`DAVE_nonlinear_creep_timestep`, with fuel (the source loop terminates
only when a pass converges, so it has no intrinsic bound). -/
def DAVE_outer_loop (NRows NCols : ℕ) (dres D_nl : ℚ)
    (solve : ℚ → ℚ → ℚ → Grid → Grid → Grid) (iteration_tolerance : ℚ) :
    ℕ → CreepState → Option CreepState
  | 0, _ => none
  | fuel + 1, s =>
    let r := DAVE_outer_pass NRows NCols dres D_nl solve iteration_tolerance s
    if r.2 then some r.1
    else DAVE_outer_loop NRows NCols dres D_nl solve iteration_tolerance fuel r.1

/-- `LSDRasterModel::DAVE_nonlinear_creep_timestep`: saves
`dt_old = timeStep` on entry, runs the adaptive outer loop, then writes
`RasterData = zeta_this_iter` and restores `timeStep = dt_old` before
returning. -/
def DAVE_nonlinear_creep_timestep (NRows NCols : ℕ) (dres D_nl : ℚ)
    (solve : ℚ → ℚ → ℚ → Grid → Grid → Grid) (iteration_tolerance : ℚ)
    (fuel : ℕ) (s : CreepState) : Option CreepState :=
  let dt_old := s.timeStep
  (DAVE_outer_loop NRows NCols dres D_nl solve iteration_tolerance fuel s).map
    fun s1 => { s1 with RasterData := s1.zeta_this_iter, timeStep := dt_old }

/-- The iteration count of the first inner convergence phase of a call
to `DAVE_nonlinear_creep_timestep` (how many passes the inner loop of
the first outer pass performs). -/
def DAVE_first_phase_iterations (NRows NCols : ℕ)
    (solve : ℚ → ℚ → ℚ → Grid → Grid → Grid) (iteration_tolerance : ℚ)
    (s : CreepState) : ℕ :=
  (DAVE_inner_loop NRows NCols solve iteration_tolerance 11
    { s with zeta_last_iter := s.RasterData, zeta_last_timestep := s.RasterData }
    (iteration_tolerance + 1) 0).2.1

/-- The do-while loop skeleton of `LSDRasterModel::run_components()`:
each pass first tests `check_if_hung` and `break`s out of the run when
it fires, otherwise performs the per-step work (hillslope, wash-out,
fluvial, isostasy, uplift, statistics — abstracted here into the
`step` oracle) and repeats until `check_end_condition` (abstracted into
`endCond`) holds.  Returns `true` iff the loop was aborted through the
hung-run break. -/
def run_components_aborted (step : Model → Model) (endCond : Model → Bool) :
    ℕ → Model → Bool
  | 0, _ => false
  | fuel + 1, M =>
    if check_if_hung M then true
    else
      let M' := step M
      if endCond M' then false
      else run_components_aborted step endCond fuel M'

/-! ## Shared lemmas -/

/-- One Airy application conserves `elevation + root` at every cell:
the new pair is `(load - root', root')` with `load` the old total. -/
theorem airy_total (NRows NCols : ℕ) (zeta root : Grid) (c : Cell) :
    (Airy_isostasy NRows NCols zeta root).1 c + (Airy_isostasy NRows NCols zeta root).2 c =
      zeta c + root c := by
  unfold Airy_isostasy
  dsimp only
  split <;> ring

/-! ## Claims -/

/-- C10: every single application of `Airy_isostasy` conserves, exactly
and cell-wise, the sum of elevation and root depth — for every cell,
including base-level and no-data cells (the loop skips none). -/
theorem C10_airy_conserves_load (NRows NCols : ℕ) (zeta root : Grid) (c : Cell) :
    (Airy_isostasy NRows NCols zeta root).1 c + (Airy_isostasy NRows NCols zeta root).2 c =
      zeta c + root c :=
  airy_total NRows NCols zeta root c

/-- C8: `Airy_isostasy` is idempotent on the per-cell total: applying it
twice in succession, with no change to the elevation or root fields in
between, leaves `elevation + root` at every cell the same as applying
it once. -/
theorem C8_airy_idempotent_total (NRows NCols : ℕ) (zeta root : Grid) (c : Cell) :
    (Airy_isostasy NRows NCols
        (Airy_isostasy NRows NCols zeta root).1
        (Airy_isostasy NRows NCols zeta root).2).1 c +
      (Airy_isostasy NRows NCols
        (Airy_isostasy NRows NCols zeta root).1
        (Airy_isostasy NRows NCols zeta root).2).2 c =
      (Airy_isostasy NRows NCols zeta root).1 c +
        (Airy_isostasy NRows NCols zeta root).2 c :=
  airy_total NRows NCols _ _ c

/-- A concrete model state used to instantiate claims: a 3×3 grid with
north/south base-level edges, flat elevation, constant parameters. -/
def M0 : Model where
  NRows := 3
  NCols := 3
  DataResolution := 1
  NoDataValue := -9999
  RasterData := fun _ => 0
  zeta_old := fun _ => 0
  root_depth := fun _ => 0
  timeStep := 1
  endTime := 1
  endTime_mode := 0
  current_time := 0
  periodicity := 1
  periodicity_2 := 1
  switch_time := 0
  switch_delay := 0
  time_delay := 0
  p_weight := 1
  K_fluv := 1
  K_soil := 1
  K_amplitude := 0
  D_amplitude := 0
  K_mode := 0
  D_mode := 0
  period_mode := 0
  m := 1
  n := 1
  S_c := 1
  max_uplift := 1
  uplift_mode := 0
  bc := fun i => if i = 0 ∨ i = 2 then 'b' else 'n'
  steady_state := false
  initial_steady_state := false
  cycle_steady_check := false
  steady_state_tolerance := 1/10000
  steady_state_limit := -1
  erosion_cycle_record := fun _ => -99

/-- The state of a run that satisfies the hung-run conditions of the
claim: end-time mode 1, initial steady state never reached, and the
clock at 101 times the nominal end time. -/
def hung_model : Model :=
  { M0 with endTime_mode := 1, endTime := 1, current_time := 101,
            initial_steady_state := false }

/-- `check_if_hung` is constantly false (its body is an early
`return false;`). -/
theorem check_if_hung_eq_false (M : Model) : check_if_hung M = false := rfl

/-- C4 (code bug): `check_if_hung` contains an unconditional
`return false;` before its mode `switch`, so it returns `false` on
every state — including the claim's hung state, on which the
unreachable switch logic would return `true` — and consequently the
`run_components` loop never takes the hung-run `break`. -/
theorem C4_hung_check_disabled :
    (∀ M : Model, check_if_hung M = false) ∧
    check_if_hung hung_model = false ∧
    check_if_hung_dead_switch hung_model = true ∧
    (∀ (step : Model → Model) (endCond : Model → Bool) (fuel : ℕ) (M : Model),
      run_components_aborted step endCond fuel M = false) := by
  refine ⟨fun M => rfl, rfl, ?_, fun step endCond fuel => ?_⟩
  · norm_num [check_if_hung_dead_switch, hung_model, M0]
  · induction fuel with
    | zero => intro M; rfl
    | succ k ih =>
      intro M
      simp only [run_components_aborted, check_if_hung_eq_false, Bool.false_eq_true,
        if_false]
      split
      · rfl
      · exact ih (step M)

/-- The state of the C5 counterexample: cyclic steady-state checking is
enabled and the erosion-cycle record still holds unset `-99` entries
(its initialization value), while the elevation field is exactly equal
to the previous-step snapshot. -/
def cycle_check_model : Model :=
  { M0 with cycle_steady_check := true, erosion_cycle_record := fun _ => -99,
            RasterData := fun _ => 5, zeta_old := fun _ => 5 }

/-- C5 counterexample: a state whose elevation field equals the
previous-timestep snapshot cell for cell, on which `check_steady_state`
nevertheless reports `steady_state = false`, because with
`cycle_steady_check` set the function consults only the erosion-cycle
record and never compares the elevation fields. -/
theorem C5_counterexample :
    (∀ i < cycle_check_model.NRows, ∀ j < cycle_check_model.NCols,
      cycle_check_model.RasterData (i, j) = cycle_check_model.zeta_old (i, j)) ∧
    (check_steady_state cycle_check_model).steady_state = false := by
  constructor
  · intro i _ j _; rfl
  · decide

/-- C5 (amended): when cyclic steady-state checking is off and the
steady-state tolerance is nonnegative, a state whose elevation field
equals the previous-timestep snapshot cell for cell makes
`check_steady_state` set the steady-state flag to true. -/
theorem C5_steady_state_detected (M : Model)
    (hcyc : M.cycle_steady_check = false)
    (htol : 0 ≤ M.steady_state_tolerance)
    (heq : ∀ i, i < M.NRows → ∀ j, j < M.NCols → M.RasterData (i, j) = M.zeta_old (i, j)) :
    (check_steady_state M).steady_state = true := by
  have hviol : steady_cell_violation M = false := by
    rw [← Bool.not_eq_true]
    intro hbad
    simp only [steady_cell_violation, List.any_eq_true, List.mem_range,
      decide_eq_true_eq] at hbad
    obtain ⟨i, hi, j, hj, hgt⟩ := hbad
    rw [heq i hi j hj, sub_self, abs_zero] at hgt
    exact absurd htol (not_le.mpr hgt)
  simp only [check_steady_state, hcyc, hviol, Bool.false_eq_true, if_false]
  split
  · split <;> rfl
  · split <;> rfl

/-- Witness for C5: the amended theorem applied to the concrete flat
state `M0` (its elevation field equals its snapshot everywhere). -/
theorem C5_witness : (check_steady_state M0).steady_state = true :=
  C5_steady_state_detected M0 rfl (by norm_num [M0]) (fun i _ j _ => rfl)

/-- Processing one node writes at most that node's own cell. -/
theorem fluvial_node_step_ne (E : Ext) (M : Model) (f : FlowInfo) (K : ℚ)
    (zeta : Grid) (node : ℕ) (c : Cell) (hc : c ≠ cellOf f node) :
    fluvial_node_step E M f K zeta node c = zeta c := by
  unfold fluvial_node_step
  dsimp only
  split_ifs <;> simp [hc]

/-- A fold over nodes none of which occupies cell `c` leaves `c`
untouched. -/
theorem fluvial_fold_untouched (E : Ext) (M : Model) (f : FlowInfo) (K : ℚ)
    (l : List ℕ) (zeta : Grid) (c : Cell) (h : ∀ nd ∈ l, cellOf f nd ≠ c) :
    l.foldl (fluvial_node_step E M f K) zeta c = zeta c := by
  induction l generalizing zeta with
  | nil => rfl
  | cons nd l ih =>
    have h1 : cellOf f nd ≠ c := h nd (List.mem_cons_self nd l)
    have h2 : ∀ x ∈ l, cellOf f x ≠ c := fun x hx => h x (List.mem_cons_of_mem nd hx)
    rw [List.foldl_cons, ih _ h2, fluvial_node_step_ne E M f K zeta nd c (Ne.symm h1)]

/-- The value written by one node's processing in the linear branch. -/
theorem fluvial_node_step_write (E : Ext) (M : Model) (f : FlowInfo) (K : ℚ)
    (zeta : Grid) (node : ℕ)
    (hn : |M.n - 1| < 1/10000)
    (hdx : dx_of_code E M (f.flow_length_code node) ≠ -99)
    (hr : node ≠ f.receiver node) :
    fluvial_node_step E M f K zeta node (cellOf f node) =
      (zeta (cellOf f node) +
        zeta (cellOf f (f.receiver node)) * stream_power_factor E M f K node) /
        (1 + stream_power_factor E M f K node) := by
  unfold fluvial_node_step
  dsimp only
  rw [if_pos hn, if_neg hdx, if_pos hr, if_pos rfl]

/-- C7: one step of linear fluvial incision (`|n - 1| < 0.0001`) with a
zero erodibility value leaves every cell of the elevation field exactly
unchanged: with `K = 0` the stream-power factor vanishes and each
node's assignment rewrites its own old value. -/
theorem C7_zero_K_identity (E : Ext) (M : Model) (f : FlowInfo)
    (hK : get_K E M = 0) (hn : |M.n - 1| < 1/10000) (c : Cell) :
    fluvial_incision E M f c = M.RasterData c := by
  unfold fluvial_incision
  have hstep : ∀ (zeta : Grid) (nd : ℕ),
      fluvial_node_step E M f (get_K E M) zeta nd = zeta := by
    intro zeta nd
    funext c'
    by_cases hc : c' = cellOf f nd
    · subst hc
      have hspf : stream_power_factor E M f (get_K E M) nd = 0 := by
        unfold stream_power_factor
        rw [hK]
        ring
      unfold fluvial_node_step
      dsimp only
      split_ifs <;> simp [hspf]
    · exact fluvial_node_step_ne E M f _ zeta nd c' hc
  induction f.nodeList with
  | nil => rfl
  | cons nd l ih => rw [List.foldl_cons, hstep]; exact ih

/-- A concrete external-oracle instance: `pow` evaluated on natural
exponents, `sin` constantly zero, a rational stand-in for `PI`. -/
def E0 : Ext where
  fpow := fun b e => b ^ e.num.toNat
  sinQ := fun _ => 0
  piQ := 314/100
  streamKfluv := 0
  streamKsoil := 0

/-- A concrete 1×2 flow network: node 0 (the base cell) receives
itself with flow-length code 0; node 1 drains to node 0 over one cell
width (code 1, one contributing pixel each plus its own). -/
def flow0 : FlowInfo where
  nodeList := [0, 1]
  rowOf := fun _ => 0
  colOf := fun nd => nd
  receiver := fun _ => 0
  contributing_pixels := fun nd => nd + 1
  flow_length_code := fun nd => nd

/-- The concrete 1×2 model of the C7 witness: `K_fluv = 0` in constant
mode, cell (0,1) at elevation 2 draining to cell (0,0). -/
def M7 : Model :=
  { M0 with NRows := 1, NCols := 2, K_fluv := 0, K_mode := 0,
            RasterData := fun c => if c = (0, 1) then 2 else 0 }

/-- Witness for C7: a concrete 1×2 model with `K_fluv = 0` in constant
mode; the single draining node keeps its elevation. -/
theorem C7_witness : fluvial_incision E0 M7 flow0 (0, 1) = 2 := by
  rw [C7_zero_K_identity E0 M7 flow0 rfl (by norm_num [M7, M0]) (0, 1)]
  rfl

/-- C1: in the fluvial solver's linear branch (`|n - 1| < 0.0001`), the
single pass over the flow network's visiting order gives every
non-self-receiving node with a defined distance code the final
elevation `(z_old + z_receiver_final * F) / (1 + F)` with
`F = K * pow(A, m) * (timeStep / dx)` — where `z_receiver_final` is the
receiver's *already-updated* (final) elevation, because the order lists
the receiver before its donors and each cell is written at most once. -/
theorem C1_fluvial_linear_topological (E : Ext) (M : Model) (f : FlowInfo)
    (hn : |M.n - 1| < 1/10000)
    (hnodup : f.nodeList.Nodup)
    (hinj : ∀ a ∈ f.nodeList, ∀ b ∈ f.nodeList, cellOf f a = cellOf f b → a = b)
    (pre suf : List ℕ) (node : ℕ)
    (hsplit : f.nodeList = pre ++ node :: suf)
    (horder : f.receiver node ∈ pre)
    (hrecv : node ≠ f.receiver node)
    (hdx : dx_of_code E M (f.flow_length_code node) ≠ -99) :
    fluvial_incision E M f (cellOf f node) =
      (M.RasterData (cellOf f node) +
          fluvial_incision E M f (cellOf f (f.receiver node)) *
            stream_power_factor E M f (get_K E M) node) /
        (1 + stream_power_factor E M f (get_K E M) node) := by
  have hmem_node : node ∈ f.nodeList := by
    rw [hsplit]; exact List.mem_append_right _ (List.mem_cons_self _ _)
  have hmem_recv : f.receiver node ∈ f.nodeList := by
    rw [hsplit]; exact List.mem_append_left _ horder
  rw [hsplit] at hnodup
  obtain ⟨hnodup_pre, hnodup_cons, hdisj⟩ := List.nodup_append.mp hnodup
  have hnode_not_pre : node ∉ pre := fun h => hdisj h (List.mem_cons_self _ _)
  have hnode_not_suf : node ∉ suf := (List.nodup_cons.mp hnodup_cons).1
  unfold fluvial_incision
  rw [hsplit, List.foldl_append, List.foldl_cons]
  have hA : List.foldl (fluvial_node_step E M f (get_K E M))
      (fluvial_node_step E M f (get_K E M)
        (List.foldl (fluvial_node_step E M f (get_K E M)) M.RasterData pre) node) suf
      (cellOf f node) =
      fluvial_node_step E M f (get_K E M)
        (List.foldl (fluvial_node_step E M f (get_K E M)) M.RasterData pre) node
        (cellOf f node) := by
    refine fluvial_fold_untouched E M f _ suf _ _ (fun b hb heq => ?_)
    have hbmem : b ∈ f.nodeList := by
      rw [hsplit]; exact List.mem_append_right _ (List.mem_cons_of_mem _ hb)
    have hbn : b = node := hinj b hbmem node hmem_node heq
    exact hnode_not_suf (hbn ▸ hb)
  have hC : List.foldl (fluvial_node_step E M f (get_K E M)) M.RasterData pre
      (cellOf f node) = M.RasterData (cellOf f node) := by
    refine fluvial_fold_untouched E M f _ pre _ _ (fun a ha heq => ?_)
    have hamem : a ∈ f.nodeList := by rw [hsplit]; exact List.mem_append_left _ ha
    have han : a = node := hinj a hamem node hmem_node heq
    exact hnode_not_pre (han ▸ ha)
  have hD : List.foldl (fluvial_node_step E M f (get_K E M))
      (fluvial_node_step E M f (get_K E M)
        (List.foldl (fluvial_node_step E M f (get_K E M)) M.RasterData pre) node) suf
      (cellOf f (f.receiver node)) =
      List.foldl (fluvial_node_step E M f (get_K E M)) M.RasterData pre
        (cellOf f (f.receiver node)) := by
    rw [← List.foldl_cons]
    refine fluvial_fold_untouched E M f _ (node :: suf) _ _ (fun b hb heq => ?_)
    have hbmem : b ∈ f.nodeList := by
      rw [hsplit]; exact List.mem_append_right _ hb
    have hbr : b = f.receiver node := hinj b hbmem _ hmem_recv heq
    exact hdisj horder (hbr ▸ hb)
  rw [hA, hD, fluvial_node_step_write E M f (get_K E M) _ node hn hdx hrecv, hC]

/-- The concrete 1×2 model of the C1 witness: linear slope exponent,
unit erodibility and resolution, cell (0,1) at elevation 2 draining to
the base cell (0,0). -/
def M1 : Model :=
  { M0 with NRows := 1, NCols := 2,
            RasterData := fun c => if c = (0, 1) then 2 else 0 }

/-- Witness for C1: on the concrete network `flow0` (node 1 drains to
node 0 over one cell), the theorem's hypotheses hold and node 1's final
elevation is the claimed blend with its receiver's final elevation. -/
theorem C1_witness :
    fluvial_incision E0 M1 flow0 (0, 1) =
      (M1.RasterData (0, 1) +
          fluvial_incision E0 M1 flow0 (0, 0) *
            stream_power_factor E0 M1 flow0 (get_K E0 M1) 1) /
        (1 + stream_power_factor E0 M1 flow0 (get_K E0 M1) 1) :=
  C1_fluvial_linear_topological E0 M1 flow0 (by norm_num [M1, M0]) (by decide)
    (by decide) [0] [] 1 rfl (by decide) (by decide) (by decide)

/-- In the `n ≠ 1` branch (`|n - 1| ≥ 0.0001`) `fluvial_incision`
writes nothing: the Newton solve's `new_zeta` is a dead local, so the
whole pass is the identity on the elevation field. -/
theorem fluvial_nonlinear_no_writeback (E : Ext) (M : Model) (f : FlowInfo)
    (hn : ¬ |M.n - 1| < 1/10000) (c : Cell) :
    fluvial_incision E M f c = M.RasterData c := by
  unfold fluvial_incision
  have hstep : ∀ (zeta : Grid) (nd : ℕ),
      fluvial_node_step E M f (get_K E M) zeta nd = zeta := by
    intro zeta nd
    unfold fluvial_node_step
    dsimp only
    rw [if_neg hn]
    split_ifs <;> rfl
  induction f.nodeList with
  | nil => rfl
  | cons nd l ih => rw [List.foldl_cons, hstep]; exact ih

/-- The concrete model of the C3 failing input: slope exponent `n = 2`,
erodibility `1/100000`, cell (0,1) at elevation 2 draining to the base
cell (0,0) at elevation 0 (network `flow0`). -/
def M3 : Model :=
  { M0 with NRows := 1, NCols := 2, n := 2, K_fluv := 1/100000,
            RasterData := fun c => if c = (0, 1) then 2 else 0 }

set_option maxRecDepth 8000 in
/-- C3 (code bug): on the failing input the `n ≠ 1` branch leaves every
cell of the elevation field unchanged — cell (0,1) stays at elevation 2
— even though the per-cell Newton–Raphson solve it runs (stream-power
factor `K·A^m·dt = 1/50000`, receiver elevation 0) terminates with the
root `25001/12501 ≠ 2`.  The source computes `new_zeta` but never
stores it back into the elevation raster. -/
theorem C3_newton_result_discarded :
    (∀ c : Cell, fluvial_incision E0 M3 flow0 c = M3.RasterData c) ∧
    fluvial_incision E0 M3 flow0 (0, 1) = 2 ∧
    fluvial_newton E0 (1/50000) 2 1 2 0 10 2 = some (25001/12501, 1/12501) ∧
    (25001/12501 : ℚ) ≠ 2 := by
  have hno : ∀ c : Cell, fluvial_incision E0 M3 flow0 c = M3.RasterData c :=
    fluvial_nonlinear_no_writeback E0 M3 flow0 (by norm_num [M3, M0])
  refine ⟨hno, ?_, by with_unfolding_all rfl, by norm_num⟩
  rw [hno (0, 1)]
  rfl

/-- When every fixed-elevation ('b') edge lies on the axis selected by
`interpret_boundary` (the configuration the solver is designed for —
the solved axis is "determined by which pair of edges is
fixed-elevation"), no base-level cell lies in the hillslope solvers'
write-back region. -/
theorem base_not_in_repack (M : Model)
    (hax : ∀ k, k < 4 → M.bc k = 'b' → k % 2 = interpret_dimension M)
    (i j : ℕ) (hb : is_base_level M i j = true) :
    ¬ repack_region M (interpret_dimension M) (i, j) := by
  intro hr
  unfold is_base_level at hb
  unfold repack_region at hr
  split_ifs at hb with h1 h2 h3 h4
  · obtain ⟨hi, hbc⟩ := h1
    have hd : interpret_dimension M = 0 := by
      have h := hax 0 (by norm_num) hbc; omega
    rw [hd] at hr
    rw [if_pos rfl] at hr
    omega
  · obtain ⟨hj, hbc⟩ := h2
    have hd : interpret_dimension M = 1 := by
      have h := hax 3 (by norm_num) hbc; omega
    rw [hd] at hr
    rw [if_neg Nat.one_ne_zero] at hr
    omega
  · obtain ⟨hi, hbc⟩ := h3
    have hd : interpret_dimension M = 0 := by
      have h := hax 2 (by norm_num) hbc; omega
    rw [hd] at hr
    rw [if_pos rfl] at hr
    omega
  · obtain ⟨hj, hbc⟩ := h4
    have hd : interpret_dimension M = 1 := by
      have h := hax 1 (by norm_num) hbc; omega
    rw [hd] at hr
    rw [if_neg Nat.one_ne_zero] at hr
    omega

/-- The nonlinear Picard loop never writes a cell outside the repack
region. -/
theorem fv_loop_outside (M : Model) (dimension : ℕ) (solve : Grid → ℕ → ℚ)
    (c : Cell) (hc : ¬ repack_region M dimension c) :
    ∀ (budget : ℕ) (zeta : Grid),
      soil_diffusion_fv_loop M dimension solve budget zeta c = zeta c := by
  intro budget
  induction budget with
  | zero => intro zeta; rfl
  | succ b ih =>
    intro zeta
    simp only [soil_diffusion_fv_loop]
    split
    · rw [ih]
      unfold repack_vector
      rw [if_neg hc]
    · unfold repack_vector
      rw [if_neg hc]

/-- Processing one node of `fluvial_incision` leaves a base-level cell
unchanged, provided the flow network makes base-level cells their own
receivers. -/
theorem fluvial_node_step_base (E : Ext) (M : Model) (f : FlowInfo) (K : ℚ)
    (zeta : Grid) (nd : ℕ) (cb : Cell)
    (hb : is_base_level M cb.1 cb.2 = true)
    (hrecv : is_base_level M (f.rowOf nd) (f.colOf nd) = true → f.receiver nd = nd) :
    fluvial_node_step E M f K zeta nd cb = zeta cb := by
  by_cases hc : cb = cellOf f nd
  · have hself : f.receiver nd = nd := hrecv (by rw [hc] at hb; exact hb)
    subst hc
    unfold fluvial_node_step
    dsimp only
    split_ifs with h1 h2 h3
    · rfl
    · exact absurd hself.symm h3
    · rfl
    · rfl
    · rfl
  · exact fluvial_node_step_ne E M f K zeta nd cb hc

/-- The whole fluvial pass leaves base-level cells unchanged under the
same flow-network property. -/
theorem fluvial_fold_base (E : Ext) (M : Model) (f : FlowInfo) (K : ℚ)
    (cb : Cell) (hb : is_base_level M cb.1 cb.2 = true) :
    ∀ (l : List ℕ) (zeta : Grid),
      (∀ nd ∈ l, is_base_level M (f.rowOf nd) (f.colOf nd) = true → f.receiver nd = nd) →
      l.foldl (fluvial_node_step E M f K) zeta cb = zeta cb := by
  intro l
  induction l with
  | nil => intro zeta _; rfl
  | cons nd l ih =>
    intro zeta hflow
    rw [List.foldl_cons, ih _ (fun x hx => hflow x (List.mem_cons_of_mem nd hx)),
      fluvial_node_step_base E M f K zeta nd cb hb
        (hflow nd (List.mem_cons_self nd l))]

/-- C6: base-level (fixed-elevation edge) cells are invariant under the
uplift step, both hillslope diffusion steps, and the fluvial incision
step.  Hypotheses: the fixed-elevation edges lie on the axis the
hillslope solver pins (its design configuration), and the flow-routing
collaborator makes base-level cells their own receivers. -/
theorem C6_base_level_invariant (E : Ext) (M : Model) (f : FlowInfo)
    (bicg : ℕ → ℚ) (solveN : Grid → ℕ → ℚ) (i j : ℕ)
    (hb : is_base_level M i j = true)
    (hax : ∀ k, k < 4 → M.bc k = 'b' → k % 2 = interpret_dimension M)
    (hflow : ∀ nd ∈ f.nodeList,
      is_base_level M (f.rowOf nd) (f.colOf nd) = true → f.receiver nd = nd) :
    uplift_surface E M (i, j) = M.RasterData (i, j) ∧
    soil_diffusion_fd_linear M bicg (i, j) = M.RasterData (i, j) ∧
    soil_diffusion_fv_nonlinear M solveN (i, j) = M.RasterData (i, j) ∧
    fluvial_incision E M f (i, j) = M.RasterData (i, j) := by
  refine ⟨?_, ?_, ?_, ?_⟩
  · unfold uplift_surface
    rw [if_neg]
    intro h
    exact absurd hb (by simp [h.2.2.1])
  · unfold soil_diffusion_fd_linear repack_vector
    rw [if_neg (base_not_in_repack M hax i j hb)]
  · unfold soil_diffusion_fv_nonlinear
    exact fv_loop_outside M _ solveN (i, j) (base_not_in_repack M hax i j hb) 200
      M.RasterData
  · exact fluvial_fold_base E M f (get_K E M) (i, j) hb f.nodeList M.RasterData hflow

/-- The concrete 3×3 flow network of the C6 witness: base rows (0 and
2) self-receive with code 0; the middle row drains north with code 1. -/
def flow6 : FlowInfo where
  nodeList := [0, 1, 2, 3, 4, 5, 6, 7, 8]
  rowOf := fun nd => nd / 3
  colOf := fun nd => nd % 3
  receiver := fun nd => if 3 ≤ nd ∧ nd < 6 then nd - 3 else nd
  contributing_pixels := fun _ => 1
  flow_length_code := fun nd => if 3 ≤ nd ∧ nd < 6 then 1 else 0

/-- Witness for C6: on the concrete model `M0` (north and south edges
fixed-elevation) with the network `flow6`, the base cell (0,1) is
untouched by uplift, both hillslope solvers (arbitrary concrete solver
outputs), and the fluvial pass. -/
theorem C6_witness :
    uplift_surface E0 M0 (0, 1) = M0.RasterData (0, 1) ∧
    soil_diffusion_fd_linear M0 (fun _ => 7) (0, 1) = M0.RasterData (0, 1) ∧
    soil_diffusion_fv_nonlinear M0 (fun _ _ => 7) (0, 1) = M0.RasterData (0, 1) ∧
    fluvial_incision E0 M0 flow6 (0, 1) = M0.RasterData (0, 1) :=
  C6_base_level_invariant E0 M0 flow6 (fun _ => 7) (fun _ _ => 7) 0 1
    (by decide) (by decide) (by decide)

/-- The inner convergence loop mutates only the iterate fields
(`zeta_last_iter`, `zeta_this_iter`); the member time step, the
elevation raster, the previous-timestep snapshot and the front terms
pass through unchanged. -/
theorem DAVE_inner_preserves (NRows NCols : ℕ)
    (solve : ℚ → ℚ → ℚ → Grid → Grid → Grid) (iteration_tolerance : ℚ) :
    ∀ (budget : ℕ) (s : CreepState) (mr : ℚ) (k : ℕ),
      (DAVE_inner_loop NRows NCols solve iteration_tolerance budget s mr k).1.timeStep =
          s.timeStep ∧
      (DAVE_inner_loop NRows NCols solve iteration_tolerance budget s mr k).1.RasterData =
          s.RasterData ∧
      (DAVE_inner_loop NRows NCols solve iteration_tolerance budget s mr k).1.dx_front_term =
          s.dx_front_term ∧
      (DAVE_inner_loop NRows NCols solve iteration_tolerance budget s mr k).1.dy_front_term =
          s.dy_front_term := by
  intro budget
  induction budget with
  | zero => exact fun s mr k => ⟨rfl, rfl, rfl, rfl⟩
  | succ b ih =>
    intro s mr k
    simp only [DAVE_inner_loop]
    split
    · exact ih _ _ _
    · exact ⟨rfl, rfl, rfl, rfl⟩

/-- When the inner solve converges in a single iteration, the outer
pass finishes (`continue_switch = true`) with the working time step
doubled and the front terms rebuilt from the doubled value. -/
theorem DAVE_outer_pass_speedup (NRows NCols : ℕ) (dres D_nl : ℚ)
    (solve : ℚ → ℚ → ℚ → Grid → Grid → Grid) (iteration_tolerance : ℚ)
    (s : CreepState)
    (h1 : DAVE_first_phase_iterations NRows NCols solve iteration_tolerance s = 1) :
    (DAVE_outer_pass NRows NCols dres D_nl solve iteration_tolerance s).2 = true ∧
    (DAVE_outer_pass NRows NCols dres D_nl solve iteration_tolerance s).1.timeStep =
      s.timeStep * 2 ∧
    (DAVE_outer_pass NRows NCols dres D_nl solve iteration_tolerance s).1.dx_front_term =
      s.timeStep * 2 * D_nl / (dres * dres) := by
  unfold DAVE_first_phase_iterations at h1
  have hpres := DAVE_inner_preserves NRows NCols solve iteration_tolerance 11
    { s with zeta_last_iter := s.RasterData, zeta_last_timestep := s.RasterData }
    (iteration_tolerance + 1) 0
  unfold DAVE_outer_pass
  dsimp only
  rw [h1, if_pos rfl]
  unfold DAVE_initiate
  refine ⟨rfl, ?_, ?_⟩
  · dsimp only
    rw [hpres.1]
  · dsimp only
    rw [hpres.1]

/-- C2 (amended): within one call of `DAVE_nonlinear_creep_timestep`,
(i) if the inner solve converges in exactly one iteration the working
time step is doubled (the rebuilt front term records `2·dt`) but the
member time step returned to the caller is restored to its entry value,
so the *next* call runs with the same time step as this one; and
(ii) if the inner solve exhausts the iteration cap, the step is retried
within the same call (`continue_switch` stays false) with the working
time step cut by a factor of 10 and `zeta_last_iter` reset to the
pre-step elevation snapshot. -/
theorem C2_adaptive_timestep_internal (NRows NCols : ℕ) (dres D_nl : ℚ)
    (solve : ℚ → ℚ → ℚ → Grid → Grid → Grid) (iteration_tolerance : ℚ)
    (s : CreepState) :
    (DAVE_first_phase_iterations NRows NCols solve iteration_tolerance s = 1 →
      ∀ fuel : ℕ,
        (DAVE_nonlinear_creep_timestep NRows NCols dres D_nl solve iteration_tolerance
            (fuel + 1) s).map CreepState.timeStep = some s.timeStep ∧
        (DAVE_nonlinear_creep_timestep NRows NCols dres D_nl solve iteration_tolerance
            (fuel + 1) s).map CreepState.dx_front_term =
          some (s.timeStep * 2 * D_nl / (dres * dres))) ∧
    (DAVE_first_phase_iterations NRows NCols solve iteration_tolerance s ≥ 10 →
      (DAVE_outer_pass NRows NCols dres D_nl solve iteration_tolerance s).2 = false ∧
      (DAVE_outer_pass NRows NCols dres D_nl solve iteration_tolerance s).1.timeStep =
        s.timeStep / 10 ∧
      (DAVE_outer_pass NRows NCols dres D_nl solve iteration_tolerance s).1.zeta_last_iter =
        s.RasterData ∧
      (DAVE_outer_pass NRows NCols dres D_nl solve iteration_tolerance s).1.dx_front_term =
        s.timeStep / 10 * D_nl / (dres * dres)) := by
  constructor
  · intro h1 fuel
    have hp := DAVE_outer_pass_speedup NRows NCols dres D_nl solve iteration_tolerance s h1
    unfold DAVE_nonlinear_creep_timestep DAVE_outer_loop
    dsimp only
    rw [hp.1, if_pos rfl]
    refine ⟨rfl, ?_⟩
    show some ((DAVE_outer_pass NRows NCols dres D_nl solve iteration_tolerance
      s).1.dx_front_term) = _
    rw [hp.2.2]
  · unfold DAVE_first_phase_iterations
    have hpres := DAVE_inner_preserves NRows NCols solve iteration_tolerance 11
      { s with zeta_last_iter := s.RasterData, zeta_last_timestep := s.RasterData }
      (iteration_tolerance + 1) 0
    intro h10
    have hne1 : ¬ (DAVE_inner_loop NRows NCols solve iteration_tolerance 11
        { s with zeta_last_iter := s.RasterData, zeta_last_timestep := s.RasterData }
        (iteration_tolerance + 1) 0).2.1 = 1 := by omega
    unfold DAVE_outer_pass
    dsimp only
    rw [if_neg hne1, if_pos h10]
    unfold DAVE_initiate
    refine ⟨rfl, ?_, ?_, ?_⟩
    · dsimp only
      rw [hpres.1]
    · dsimp only
      rw [hpres.2.1]
    · dsimp only
      rw [hpres.1]

/-- The 1×1 initial state of the C2 concrete runs: unit time step and
front terms, flat rasters. -/
def creep0 : CreepState where
  timeStep := 1
  RasterData := fun _ => 0
  zeta_last_iter := fun _ => 0
  zeta_last_timestep := fun _ => 0
  zeta_this_iter := fun _ => 0
  dx_front_term := 1
  dy_front_term := 1

/-- A solver oracle whose solution is the previous iterate — the inner
residual is zero, so the loop converges in a single iteration. -/
def creep_solve_id : ℚ → ℚ → ℚ → Grid → Grid → Grid :=
  fun _ _ _ zeta_last_iter _ => zeta_last_iter

/-- A solver oracle that moves every cell by one each pass — the inner
residual is always 1, so the loop exhausts its iteration cap. -/
def creep_solve_stuck : ℚ → ℚ → ℚ → Grid → Grid → Grid :=
  fun _ _ _ zeta_last_iter _ => fun c => zeta_last_iter c + 1

/-- C2 counterexample: a concrete call whose inner solve converges in
exactly one iteration, after which the member time step handed to the
next call equals — is not strictly larger than — the previous call's
(`timeStep = dt_old` is restored on return). -/
theorem C2_counterexample :
    DAVE_first_phase_iterations 1 1 creep_solve_id (1/100000) creep0 = 1 ∧
    (DAVE_nonlinear_creep_timestep 1 1 1 1 creep_solve_id (1/100000) 5 creep0).map
      CreepState.timeStep = some creep0.timeStep ∧
    ¬ ∃ t : ℚ,
      (DAVE_nonlinear_creep_timestep 1 1 1 1 creep_solve_id (1/100000) 5 creep0).map
        CreepState.timeStep = some t ∧ creep0.timeStep < t := by
  refine ⟨by with_unfolding_all rfl, by with_unfolding_all rfl, ?_⟩
  rintro ⟨t, ht, hlt⟩
  have he : (DAVE_nonlinear_creep_timestep 1 1 1 1 creep_solve_id (1/100000) 5 creep0).map
      CreepState.timeStep = some creep0.timeStep := by with_unfolding_all rfl
  rw [he] at ht
  rw [Option.some_inj.mp ht] at hlt
  exact lt_irrefl _ hlt

/-- Witness for C2: the amended theorem instantiated on the concrete
1×1 state — with the one-iteration solver the returned member time step
is the entry value 1 while the rebuilt front term shows the internal
doubling; with the stuck solver the outer pass retries (`false`) with
time step 1/10 and the iterate reset to the pre-step snapshot. -/
theorem C2_witness :
    ((DAVE_nonlinear_creep_timestep 1 1 1 1 creep_solve_id (1/100000) 5 creep0).map
        CreepState.timeStep = some creep0.timeStep ∧
      (DAVE_nonlinear_creep_timestep 1 1 1 1 creep_solve_id (1/100000) 5 creep0).map
        CreepState.dx_front_term = some (creep0.timeStep * 2 * 1 / (1 * 1))) ∧
    ((DAVE_outer_pass 1 1 1 1 creep_solve_stuck (1/100000) creep0).2 = false ∧
      (DAVE_outer_pass 1 1 1 1 creep_solve_stuck (1/100000) creep0).1.timeStep =
        creep0.timeStep / 10 ∧
      (DAVE_outer_pass 1 1 1 1 creep_solve_stuck (1/100000) creep0).1.zeta_last_iter =
        creep0.RasterData ∧
      (DAVE_outer_pass 1 1 1 1 creep_solve_stuck (1/100000) creep0).1.dx_front_term =
        creep0.timeStep / 10 * 1 / (1 * 1)) :=
  ⟨(C2_adaptive_timestep_internal 1 1 1 1 creep_solve_id (1/100000) creep0).1
      (by with_unfolding_all rfl) 4,
   (C2_adaptive_timestep_internal 1 1 1 1 creep_solve_stuck (1/100000) creep0).2
      (by
        have h : DAVE_first_phase_iterations 1 1 creep_solve_stuck (1/100000) creep0 = 11 := by
          with_unfolding_all rfl
        omega)⟩

/-- `pow(s, 2)` under the concrete oracle `E0`. -/
theorem E0_fpow_two (s : ℚ) : E0.fpow s 2 = s ^ 2 := by
  unfold E0
  norm_num
  rw [show Int.toNat 2 = 2 from rfl]

/-- `pow(s, n - 1)` at `n = 2` under the concrete oracle `E0`. -/
theorem E0_fpow_two_sub_one (s : ℚ) : E0.fpow s (2 - 1) = s := by
  unfold E0
  norm_num

/-- The Newton update of the `n ≠ 1` branch, instantiated at
`streamPowerFactor = 1`, `n = 2`, `dx = 1`, receiver elevation 0, in
closed form. -/
theorem newton_eps_eq (z z0 : ℚ) :
    (z - z0 + 1 * E0.fpow ((z - 0) / 1) 2) /
      (1 + 1 * (2 / 1) * E0.fpow ((z - 0) / 1) (2 - 1)) =
    (z ^ 2 + z - z0) / (1 + 2 * z) := by
  have e1 : ((z - 0) / 1 : ℚ) = z := by ring
  rw [e1, E0_fpow_two, E0_fpow_two_sub_one]
  have e2 : (1 : ℚ) + 1 * (2 / 1) * z = 1 + 2 * z := by ring
  rw [e2]
  ring_nf

/-- While the iterate is at least 1 and its square dominates twice the
target elevation, the signed Newton update exceeds the 1e-3 stopping
threshold. -/
theorem newton_eps_lower (z z0 : ℚ) (h1 : 1 ≤ z) (h2 : 2 * z0 ≤ z ^ 2) :
    1 / 1000 < (z ^ 2 + z - z0) / (1 + 2 * z) := by
  have hden : (0 : ℚ) < 1 + 2 * z := by linarith
  rw [lt_div_iff₀ hden]
  nlinarith

/-- Each Newton step shrinks the iterate by at most a factor of 3 in
this regime. -/
theorem newton_next_lower (z z0 : ℚ) (h1 : 1 ≤ z) (h0 : 0 ≤ z0) :
    z / 3 ≤ z - (z ^ 2 + z - z0) / (1 + 2 * z) := by
  have hden : (0 : ℚ) < 1 + 2 * z := by linarith
  have heq : z - (z ^ 2 + z - z0) / (1 + 2 * z) = (z ^ 2 + z0) / (1 + 2 * z) := by
    field_simp
    ring
  rw [heq, le_div_iff₀ hden]
  nlinarith

/-- From a starting elevation whose square dominates `2·z0·9^b`, the
per-cell Newton loop of the `n ≠ 1` branch performs more than `b`
iterations: the fuel-`b` run exhausts its budget. -/
theorem newton_runs_long (z0 : ℚ) (h0 : 0 ≤ z0) :
    ∀ (b : ℕ) (z : ℚ), (3 : ℚ) ^ b ≤ z → 2 * z0 * 9 ^ b ≤ z ^ 2 →
      fluvial_newton E0 1 2 1 z0 0 b z = none := by
  intro b
  induction b with
  | zero => intro z _ _; rfl
  | succ k ih =>
    intro z hz hz2
    have h1 : (1 : ℚ) ≤ z := le_trans (one_le_pow₀ (by norm_num)) hz
    have h9 : (1 : ℚ) ≤ 9 ^ (k + 1) := one_le_pow₀ (by norm_num)
    have h2 : 2 * z0 ≤ z ^ 2 := by nlinarith
    simp only [fluvial_newton]
    rw [newton_eps_eq z z0, if_pos (newton_eps_lower z z0 h1 h2)]
    have hnext : z / 3 ≤ z - (z ^ 2 + z - z0) / (1 + 2 * z) := newton_next_lower z z0 h1 h0
    apply ih
    · have h3k : (3 : ℚ) ^ k ≤ z / 3 := by
        rw [le_div_iff₀ (by norm_num : (0 : ℚ) < 3)]
        calc (3 : ℚ) ^ k * 3 = 3 ^ (k + 1) := by ring
        _ ≤ z := hz
      linarith
    · have hz3 : (0 : ℚ) ≤ z / 3 := by linarith
      have hsq : (z / 3) ^ 2 ≤ (z - (z ^ 2 + z - z0) / (1 + 2 * z)) ^ 2 :=
        pow_le_pow_left₀ hz3 hnext 2
      have h99 : 2 * z0 * 9 ^ k ≤ (z / 3) ^ 2 := by
        have he : (z / 3) ^ 2 = z ^ 2 / 9 := by ring
        rw [he, le_div_iff₀ (by norm_num : (0 : ℚ) < 9)]
        calc 2 * z0 * 9 ^ k * 9 = 2 * z0 * 9 ^ (k + 1) := by ring
        _ ≤ z ^ 2 := hz2
      linarith

/-- C9 counterexample: no iteration bound exists for the per-cell
Newton loop of the `n ≠ 1` branch — for every candidate bound `B` there
is a starting elevation (`2·9^(B+1)`, draining to a receiver at 0 with
stream-power factor 1 and `n = 2`) on which the loop runs more than `B`
iterations.  The source loop carries no iteration cap and no warning;
this refutes "terminates within a bounded number of iterations". -/
theorem C9_counterexample :
    ¬ ∃ B : ℕ, ∀ old_zeta : ℚ,
      (fluvial_newton E0 1 2 1 old_zeta 0 B old_zeta).isSome = true := by
  rintro ⟨B, hB⟩
  have h := hB (2 * 9 ^ (B + 1))
  have h9 : (0 : ℚ) < 9 ^ (B + 1) := by positivity
  have hz : (3 : ℚ) ^ B ≤ 2 * 9 ^ (B + 1) := by
    have h39 : (3 : ℚ) ^ B ≤ 9 ^ (B + 1) := by
      calc (3 : ℚ) ^ B ≤ 3 ^ (2 * (B + 1)) := by
            apply pow_le_pow_right₀ (by norm_num)
            omega
      _ = 9 ^ (B + 1) := by
            rw [pow_mul]
            norm_num
    linarith
  have hz2 : (2 : ℚ) * (2 * 9 ^ (B + 1)) * 9 ^ B ≤ (2 * 9 ^ (B + 1)) ^ 2 := by
    have h99 : (9 : ℚ) ^ B ≤ 9 ^ (B + 1) := pow_le_pow_right₀ (by norm_num) (Nat.le_succ B)
    nlinarith [mul_le_mul_of_nonneg_left h99
      (by positivity : (0 : ℚ) ≤ 4 * 9 ^ (B + 1))]
  rw [newton_runs_long (2 * 9 ^ (B + 1)) (by positivity) B (2 * 9 ^ (B + 1)) hz hz2] at h
  simp at h

/-- C9 (amended): when the per-cell Newton loop does return, it is
because the signed update `epsilon` has fallen to at most 1e-3 (its
do-while repeats while `epsilon > 0.001`, the botched
`abs(epsilon > 0.001)` applying `abs` to the comparison); the loop has
no iteration cap and emits no warning, and its returned pair carries
that final update. -/
theorem C9_newton_stops_only_below_tolerance (E : Ext)
    (streamPowerFactor n dx old_zeta zeta_receiver : ℚ) :
    ∀ (fuel : ℕ) (z zfin eps : ℚ),
      fluvial_newton E streamPowerFactor n dx old_zeta zeta_receiver fuel z =
        some (zfin, eps) → eps ≤ 1/1000 := by
  intro fuel
  induction fuel with
  | zero => intro z zfin eps h; exact absurd h (by simp [fluvial_newton])
  | succ f ih =>
    intro z zfin eps h
    simp only [fluvial_newton] at h
    split at h
    · exact ih _ _ _ h
    · simp only [Option.some.injEq, Prod.mk.injEq] at h
      rename_i hc
      rw [← h.2]
      exact not_lt.mp hc

/-- Witness for C9's amended theorem: starting at the receiver's
elevation the first update is 0 ≤ 1e-3 and the loop returns at once. -/
theorem C9_witness :
    fluvial_newton E0 1 2 1 0 0 1 0 = some (0, 0) ∧ (0 : ℚ) ≤ 1/1000 :=
  ⟨by with_unfolding_all rfl,
   C9_newton_stops_only_below_tolerance E0 1 2 1 0 0 1 0 0 0
     (by with_unfolding_all rfl)⟩

end LSDRM
